import Mathlib

/-!
Shallow embedding of the quanta-trade-insight cost-model core.

Numbers: the TypeScript code computes with `decimal.js` decimals and JS
numbers; both are modelled as exact rationals (`ℚ`).  Transcendental
primitives (`Math.exp`, `Math.sqrt`) are passed in as function parameters,
constrained only by the order properties the proofs need (the real
functions satisfy them).  The non-finite `decimal.js` values produced by
one code variant (`Infinity`, `NaN`) are modelled explicitly with a sum
type / `Option`, never collapsed to `0`.

Sources embedded here:
- `src/src/lib/marketModels.ts` (slippage, fees, market impact,
  maker/taker proportion, net cost);
- `src/unnamed/part_000` lines 325-479: the market-metrics module with the
  zero-guarded imbalance and the fixed 100%-impact sentinel;
- `src/unnamed/part_000` lines 480-604: the duplicate market-metrics
  module with the unguarded imbalance division and the `Infinity`
  sentinel;
- `src/unnamed/part_001` lines 14-28: the enhanced slippage model;
- `src/src/lib/websocket.ts`: the reconnecting feed client, modelled as an
  explicit event-driven state machine.
-/

/-- One price level of the book: a `[priceString, sizeString]` pair. -/
structure Level where
  price : ℚ
  size : ℚ
deriving DecidableEq, Inhabited

/-- The `OrderBookData` wire object (`src/src/lib/types.ts`): the two sides
relevant to the models. -/
structure OrderBookData where
  asks : List Level
  bids : List Level
deriving DecidableEq, Inhabited

/-- The `MarketMetrics` record returned by `calculateMarketMetrics`. -/
structure MarketMetrics where
  spread : ℚ
  depth : ℚ
  imbalance : ℚ
  volatility : ℚ
deriving DecidableEq

/-- Mid price `(bestAsk + bestBid) / 2` computed from the two best levels. -/
def bookMid (a bd : Level) : ℚ := (a.price + bd.price) / 2

/-- Depth threshold `midPrice * 0.02` (the symmetric 2% band). -/
def bookThr (a bd : Level) : ℚ := bookMid a bd * (2 / 100)

/-- The per-side depth accumulation loop: sum the sizes of the levels whose
price lies within `thr` of `mid`. -/
def bandDepth (mid thr : ℚ) (levels : List Level) : ℚ :=
  levels.foldl (fun acc l => if |mid - l.price| ≤ thr then acc + l.size else acc) 0

/-- `calculateMarketMetrics` from `src/unnamed/part_000` lines 335-386: the
variant with the explicit divide-by-zero guard on `imbalance`
(`depth.isZero() ? 0 : bidDepth.minus(askDepth).div(depth)`).  If either
best level is absent it returns the all-zero neutral metrics. -/
def calculateMarketMetrics (b : OrderBookData) : MarketMetrics :=
  match b.asks, b.bids with
  | a :: _, bd :: _ =>
    { spread := a.price - bd.price
      depth := bandDepth (bookMid a bd) (bookThr a bd) b.bids
               + bandDepth (bookMid a bd) (bookThr a bd) b.asks
      imbalance :=
        if bandDepth (bookMid a bd) (bookThr a bd) b.bids
           + bandDepth (bookMid a bd) (bookThr a bd) b.asks = 0 then 0
        else (bandDepth (bookMid a bd) (bookThr a bd) b.bids
              - bandDepth (bookMid a bd) (bookThr a bd) b.asks)
             / (bandDepth (bookMid a bd) (bookThr a bd) b.bids
                + bandDepth (bookMid a bd) (bookThr a bd) b.asks)
      volatility := (a.price - bd.price) / bookMid a bd * 100 }
  | _, _ => ⟨0, 0, 0, 0⟩

/-- The metrics record of the duplicate module (`src/unnamed/part_000`
lines 485-535).  Its `imbalance` division has no zero guard: when
`depth = 0` the `decimal.js` division produces a non-finite value
(`NaN` for `0/0`, `±Infinity` otherwise), modelled as `none`. -/
structure MarketMetricsUnguarded where
  spread : ℚ
  depth : ℚ
  imbalance : Option ℚ
  volatility : ℚ
deriving DecidableEq

/-- `calculateMarketMetrics` from `src/unnamed/part_000` lines 485-535: the
duplicate variant whose imbalance is `bidDepth.minus(askDepth).div(depth)`
with no guard against `depth = 0`. -/
def calculateMarketMetricsNoGuard (b : OrderBookData) : MarketMetricsUnguarded :=
  match b.asks, b.bids with
  | a :: _, bd :: _ =>
    { spread := a.price - bd.price
      depth := bandDepth (bookMid a bd) (bookThr a bd) b.bids
               + bandDepth (bookMid a bd) (bookThr a bd) b.asks
      imbalance :=
        if bandDepth (bookMid a bd) (bookThr a bd) b.bids
           + bandDepth (bookMid a bd) (bookThr a bd) b.asks = 0 then none
        else some ((bandDepth (bookMid a bd) (bookThr a bd) b.bids
                    - bandDepth (bookMid a bd) (bookThr a bd) b.asks)
                   / (bandDepth (bookMid a bd) (bookThr a bd) b.bids
                      + bandDepth (bookMid a bd) (bookThr a bd) b.asks))
      volatility := (a.price - bd.price) / bookMid a bd * 100 }
  | _, _ => ⟨0, 0, none, 0⟩

/-- Order side of a walk (`'buy' | 'sell'`). -/
inductive Side where
  | buy
  | sell
deriving DecidableEq

/-- Which book side a walk reads: `asks` for a buy, `bids` for a sell. -/
def sideLevels (b : OrderBookData) : Side → List Level
  | Side.buy => b.asks
  | Side.sell => b.bids

/-- One iteration of the book-walk loop: skip once the remaining quantity
is exhausted, otherwise fill `min remaining size` at the level price.
The accumulator is `(totalCost, remainingQty)`. -/
def walkStep (acc : ℚ × ℚ) (l : Level) : ℚ × ℚ :=
  if acc.2 ≤ 0 then acc
  else (acc.1 + l.price * min acc.2 l.size, acc.2 - min acc.2 l.size)

/-- The full walk over the levels, starting from `(0, qty)`. -/
def walkLevels (levels : List Level) (qty : ℚ) : ℚ × ℚ :=
  levels.foldl walkStep (0, qty)

/-- Total size available across all levels of a list. -/
def totalSize (levels : List Level) : ℚ := (levels.map Level.size).sum

/-- Body of `calculatePriceImpact` from `src/unnamed/part_000` lines
420-456 (the variant with the fixed sentinel): walk the levels; if the
order cannot be fully filled return `100` (the documented "maximum impact
(100%)" sentinel); otherwise compare the average fill price against the
best price of the walked side. -/
def impactOnLevels : List Level → ℚ → Side → ℚ
  | [], _, _ => 0
  | l0 :: rest, quantity, side =>
    if 0 < (walkLevels (l0 :: rest) quantity).2 then 100
    else
      match side with
      | Side.buy =>
        ((walkLevels (l0 :: rest) quantity).1 / quantity - l0.price) / l0.price * 100
      | Side.sell =>
        (l0.price - (walkLevels (l0 :: rest) quantity).1 / quantity) / l0.price * 100

/-- `calculatePriceImpact` (100%-sentinel variant, `src/unnamed/part_000`
lines 420-456). -/
def calculatePriceImpact (b : OrderBookData) (quantity : ℚ) (side : Side) : ℚ :=
  impactOnLevels (sideLevels b side) quantity side

/-- A `decimal.js` value that is either finite or `Infinity`. -/
inductive ExtDec where
  | fin (q : ℚ)
  | inf
deriving DecidableEq

/-- Body of `calculatePriceImpact` from `src/unnamed/part_000` lines
556-587 (the duplicate variant): on insufficient liquidity it returns
`new Decimal(Infinity)`, and it applies the buy-style formula to both
sides. -/
def impactOnLevelsUnbounded : List Level → ℚ → ExtDec
  | [], _ => ExtDec.fin 0
  | l0 :: rest, quantity =>
    if 0 < (walkLevels (l0 :: rest) quantity).2 then ExtDec.inf
    else ExtDec.fin
      (((walkLevels (l0 :: rest) quantity).1 / quantity - l0.price) / l0.price * 100)

/-- `calculatePriceImpact` (`Infinity` variant, `src/unnamed/part_000`
lines 556-587). -/
def calculatePriceImpactUnbounded (b : OrderBookData) (quantity : ℚ) (side : Side) : ExtDec :=
  impactOnLevelsUnbounded (sideLevels b side) quantity

/-- Side selector for `calculateVWAP` (`'bids' | 'asks'`). -/
inductive BookSide where
  | bids
  | asks
deriving DecidableEq

/-- The level list `orderBook[side]`. -/
def bookSideLevels (b : OrderBookData) : BookSide → List Level
  | BookSide.bids => b.bids
  | BookSide.asks => b.asks

/-- One iteration of the VWAP loop; the accumulator is
`(totalVolume, weightedSum)`. -/
def vwapFoldStep (acc : ℚ × ℚ) (l : Level) : ℚ × ℚ :=
  (acc.1 + l.size, acc.2 + l.price * l.size)

/-- Body of `calculateVWAP` (`src/unnamed/part_000` lines 394-411): `0`
for an empty side, else `weightedSum / totalVolume`, with `0` if the total
volume is zero. -/
def vwapOnLevels : List Level → ℚ
  | [] => 0
  | l :: ls =>
    if ((l :: ls).foldl vwapFoldStep (0, 0)).1 = 0 then 0
    else ((l :: ls).foldl vwapFoldStep (0, 0)).2 / ((l :: ls).foldl vwapFoldStep (0, 0)).1

/-- `calculateVWAP` from `src/unnamed/part_000` lines 394-411. -/
def calculateVWAP (b : OrderBookData) (side : BookSide) : ℚ :=
  vwapOnLevels (bookSideLevels b side)

/-- Insertion of a level into a price-ascending list, preserving the order
of equal keys (the JS comparator `parseFloat(a[0]) - parseFloat(b[0])` with
a stable `Array.prototype.sort`). -/
def insertSorted (l : Level) : List Level → List Level
  | [] => [l]
  | x :: xs => if l.price ≤ x.price then l :: x :: xs else x :: insertSorted l xs

/-- Stable sort of levels by ascending price, modelling
`[...orderBook.asks].sort((a, b) => parseFloat(a[0]) - parseFloat(b[0]))`. -/
def sortByPrice : List Level → List Level
  | [] => []
  | x :: xs => insertSorted x (sortByPrice xs)

/-- The cumulative depth over the best (at most) 10 ask levels used by the
linear slippage model in `src/src/lib/marketModels.ts`. -/
def cumDepth10 (b : OrderBookData) : ℚ :=
  (((sortByPrice b.asks).take 10).map Level.size).sum

/-- The `cumulativeDepth || 1` guard of the linear slippage model. -/
def cumDepthGuard (b : OrderBookData) : ℚ :=
  if cumDepth10 b = 0 then 1 else cumDepth10 b

/-- `calculateSlippage` from `src/src/lib/marketModels.ts` lines 34-60:
the simplified linear model
`k * (quantityBase / depth) * volatilityFactor * imbalanceFactor * 100`
with `k = 0.1`. -/
def calculateSlippage (b : OrderBookData) (quantity : ℚ) : ℚ :=
  match b.asks with
  | [] => 0
  | a :: _ =>
    (1 / 10) * ((quantity / a.price) / cumDepthGuard b)
      * ((calculateMarketMetrics b).volatility / 100)
      * (1 + |(calculateMarketMetrics b).imbalance|) * 100

/-- `calculateSlippage` from `src/unnamed/part_001` lines 14-28: the
enhanced model
`max(0, baseSlippage * (1 + imbalanceFactor) * (1 + depthFactor))` where
`baseSlippage` is the book walk of the given quantity (passed through
unchanged), `imbalanceFactor = |imbalance| * 0.5` and
`depthFactor = (1 / (depth + 1)) * 100`. -/
def calculateSlippageEnhanced (b : OrderBookData) (quantity : ℚ) : ℚ :=
  match b.asks with
  | [] => 0
  | _ :: _ =>
    max 0 (calculatePriceImpact b quantity Side.buy
      * (1 + |(calculateMarketMetrics b).imbalance| * (1 / 2))
      * (1 + 1 / ((calculateMarketMetrics b).depth + 1) * 100))

/-- The `feeRates` table of `src/src/lib/marketModels.ts` lines 9-19:
`(tier, (maker, taker))`, exact decimal values. -/
def feeRates : List (String × ℚ × ℚ) :=
  [("VIP 0", (8 / 10000, 10 / 10000)),
   ("VIP 1", (45 / 100000, 5 / 10000)),
   ("VIP 2", (4 / 10000, 45 / 100000)),
   ("VIP 3", (3 / 10000, 4 / 10000)),
   ("VIP 4", (2 / 10000, 35 / 100000)),
   ("VIP 5", (0, 3 / 10000)),
   ("VIP 6", (-2 / 100000, 25 / 100000)),
   ("VIP 7", (-5 / 100000, 2 / 10000)),
   ("VIP 8", (-5 / 100000, 15 / 100000))]

/-- `calculateFees` from `src/src/lib/marketModels.ts` lines 69-77:
`feeRates[feeTier] || feeRates["VIP 0"]`, then `quantity * taker`.
The `price` argument is accepted but unused, as in the source. -/
def calculateFees (feeTier : String) (quantity price : ℚ) : ℚ :=
  quantity * ((feeRates.lookup feeTier).getD (8 / 10000, 10 / 10000)).2

/-- The Almgren-Chriss parameter record of `src/src/lib/marketModels.ts`
lines 22-25. -/
structure ACParams where
  eta : ℚ
  gamma : ℚ

/-- `almgrenChriss = { eta: 0.01, gamma: 0.1 }`. -/
def almgrenChriss : ACParams := ⟨1 / 100, 1 / 10⟩

/-- `calculateMarketImpact` from `src/src/lib/marketModels.ts` lines
89-118.  `S` models `Math.sqrt`. -/
def calculateMarketImpact (S : ℚ → ℚ) (b : OrderBookData) (quantity volatility : ℚ) : ℚ :=
  match b.asks with
  | [] => 0
  | a :: _ =>
    ((almgrenChriss.eta * (quantity / a.price)
      + almgrenChriss.gamma / 2 * (quantity / a.price) ^ 2 * (volatility / 100))
     * (1 + 1 / S (if (calculateMarketMetrics b).depth = 0 then 1
                   else (calculateMarketMetrics b).depth)))
    * 100

/-- `calculateMakerTakerProportion` from `src/src/lib/marketModels.ts`
lines 126-160.  `E` models `Math.exp`; the result of the logistic function
is clamped with `Math.max(0, Math.min(1, _))`. -/
def calculateMakerTakerProportion (E : ℚ → ℚ) (b : OrderBookData) (quantity : ℚ) : ℚ :=
  match b.asks with
  | [] => 0
  | a :: _ =>
    max 0 (min 1 (1 / (1 + E (-((-2) * (quantity / a.price / a.size)
      + (-1) * ((calculateMarketMetrics b).spread / a.price)
      + (-1 / 2) * (calculateMarketMetrics b).imbalance + 1 / 2)))))

/-- `calculateNetCost` from `src/src/lib/marketModels.ts` lines 171-188.
The `price` argument is accepted but unused, as in the source. -/
def calculateNetCost (slippage fees marketImpact quantity price : ℚ) : ℚ :=
  quantity * (slippage / 100) + fees + quantity * (marketImpact / 100)

/-- A book is valid when both sides are non-empty, all prices and sizes
are positive, and the top of the book is not crossed. -/
abbrev validBook (b : OrderBookData) : Prop :=
  b.asks ≠ [] ∧ b.bids ≠ [] ∧
  (∀ l ∈ b.asks, 0 < l.price ∧ 0 < l.size) ∧
  (∀ l ∈ b.bids, 0 < l.price ∧ 0 < l.size) ∧
  b.bids.headI.price < b.asks.headI.price

/-- Bid-side 2%-band depth measured from the best levels, for stating the
imbalance formula. -/
def bidDepthOf (b : OrderBookData) : ℚ :=
  bandDepth (bookMid b.asks.headI b.bids.headI) (bookThr b.asks.headI b.bids.headI) b.bids

/-- Ask-side 2%-band depth measured from the best levels. -/
def askDepthOf (b : OrderBookData) : ℚ :=
  bandDepth (bookMid b.asks.headI b.bids.headI) (bookThr b.asks.headI b.bids.headI) b.asks

/-- `maxReconnectAttempts = 10` (`src/src/lib/websocket.ts` line 6). -/
def maxReconnectAttempts : ℕ := 10

/-- `reconnectDelay = 1000` ms, the initial backoff delay (line 7). -/
def reconnectDelay : ℕ := 1000

/-- The mutable fields of an `OrderBookWebSocket` instance that the
connection state machine reads and writes, plus a count of outstanding
`setTimeout` reconnect callbacks.  `wsLive` models `this.ws !== null`. -/
structure FeedState where
  wsLive : Bool
  reconnectAttempts : ℕ
  isConnected : Bool
  intentionalClose : Bool
  pendingTimers : ℕ
deriving DecidableEq

/-- The state of a freshly constructed `OrderBookWebSocket`. -/
def initFeedState : FeedState :=
  { wsLive := false, reconnectAttempts := 0, isConnected := false,
    intentionalClose := false, pendingTimers := 0 }

/-- The body of `reconnect()` (lines 101-121): when the attempt budget is
not exhausted and the close was not intentional, increment the counter and
schedule a timer with delay `min(reconnectDelay * 2^(attempts-1), 30000)`.
Returns the new state and the delay of the timer scheduled, if any. -/
def reconnectProc (s : FeedState) : FeedState × Option ℕ :=
  if s.reconnectAttempts < maxReconnectAttempts ∧ s.intentionalClose = false then
    ({ s with reconnectAttempts := s.reconnectAttempts + 1,
              pendingTimers := s.pendingTimers + 1 },
     some (min (reconnectDelay * 2 ^ (s.reconnectAttempts + 1 - 1)) 30000))
  else (s, none)

/-- The body of `connect()` (lines 27-73): clear `intentionalClose`, then
either the `WebSocket` constructor succeeds (`ok = true`, handlers are
installed on the new socket) or it throws (`ok = false`, `this.ws` keeps
its previous value and the catch block calls `reconnect()`). -/
def connectProc (s : FeedState) (ok : Bool) : FeedState × Option ℕ :=
  if ok then ({ s with intentionalClose := false, wsLive := true }, none)
  else reconnectProc { s with intentionalClose := false }

/-- External events driving one `OrderBookWebSocket` instance.
`userConnect ok` is a call to `connect()` whose transport constructor
succeeds or throws; `timerFire ok` is the expiry of a scheduled reconnect
timer, whose inner `connect()` (if reached) succeeds or throws. -/
inductive Ev where
  | userConnect (ok : Bool)
  | openEvt
  | closeEvt
  | errorEvt
  | timerFire (ok : Bool)
  | userDisconnect
deriving DecidableEq

/-- Observables of one step: whether the reconnect machinery invoked
`connect()` (a reconnect attempt fired), and the delay of any newly
scheduled reconnect timer. -/
structure StepOut where
  connectFired : Bool
  scheduled : Option ℕ
deriving DecidableEq

/-- One step of the feed state machine, straight from the handlers of
`src/src/lib/websocket.ts`:
`onopen` resets the attempt counter; `onclose` calls `reconnect()` unless
the close was intentional; `onerror` only flips the connected flag;
`disconnect()` sets `intentionalClose` and drops the socket, but only when
`this.ws` is non-null; a timer expiry re-runs `connect()` unless
`intentionalClose` is set by then. -/
def step (s : FeedState) : Ev → FeedState × StepOut
  | Ev.userConnect ok =>
    match connectProc s ok with
    | (s', d) => (s', ⟨false, d⟩)
  | Ev.openEvt =>
    ({ s with isConnected := true, reconnectAttempts := 0 }, ⟨false, none⟩)
  | Ev.closeEvt =>
    if s.intentionalClose = false then
      match reconnectProc { s with isConnected := false } with
      | (s', d) => (s', ⟨false, d⟩)
    else ({ s with isConnected := false }, ⟨false, none⟩)
  | Ev.errorEvt => ({ s with isConnected := false }, ⟨false, none⟩)
  | Ev.timerFire ok =>
    if s.pendingTimers = 0 then (s, ⟨false, none⟩)
    else
      if s.intentionalClose = false then
        match connectProc { s with pendingTimers := s.pendingTimers - 1 } ok with
        | (s', d) => (s', ⟨true, d⟩)
      else ({ s with pendingTimers := s.pendingTimers - 1 }, ⟨false, none⟩)
  | Ev.userDisconnect =>
    if s.wsLive then
      ({ s with intentionalClose := true, wsLive := false, isConnected := false },
       ⟨false, none⟩)
    else (s, ⟨false, none⟩)

/-- Run a list of events from a state. -/
def runEvents (s : FeedState) : List Ev → FeedState
  | [] => s
  | e :: es => runEvents (step s e).1 es

/-- The per-step observables of a run. -/
def stepOuts (s : FeedState) : List Ev → List StepOut
  | [] => []
  | e :: es => (step s e).2 :: stepOuts (step s e).1 es

theorem bandDepth_fold_nonneg (mid thr : ℚ) :
    ∀ (levels : List Level) (a : ℚ), 0 ≤ a → (∀ l ∈ levels, 0 ≤ l.size) →
      0 ≤ levels.foldl (fun acc l => if |mid - l.price| ≤ thr then acc + l.size else acc) a := by
  intro levels
  induction levels with
  | nil => intro a ha _; simpa using ha
  | cons x xs ih =>
    intro a ha h
    rw [List.foldl_cons]
    refine ih _ ?_ ?_
    · by_cases hc : |mid - x.price| ≤ thr
      · rw [if_pos hc]
        have hx : 0 ≤ x.size := h x (List.mem_cons_self x xs)
        linarith
      · rwa [if_neg hc]
    · intro l hl
      exact h l (List.mem_cons_of_mem _ hl)

theorem bandDepth_nonneg (mid thr : ℚ) (levels : List Level)
    (h : ∀ l ∈ levels, 0 ≤ l.size) : 0 ≤ bandDepth mid thr levels :=
  bandDepth_fold_nonneg mid thr levels 0 le_rfl h

theorem mem_insertSorted {x l : Level} :
    ∀ {ls : List Level}, x ∈ insertSorted l ls → x = l ∨ x ∈ ls := by
  intro ls
  induction ls with
  | nil =>
    intro h
    rw [insertSorted] at h
    exact Or.inl (List.mem_singleton.mp h)
  | cons y ys ih =>
    intro h
    rw [insertSorted] at h
    by_cases hc : l.price ≤ y.price
    · rw [if_pos hc] at h
      rcases List.mem_cons.mp h with h1 | h2
      · exact Or.inl h1
      · exact Or.inr h2
    · rw [if_neg hc] at h
      rcases List.mem_cons.mp h with h1 | h2
      · exact Or.inr (by simp [h1])
      · rcases ih h2 with h3 | h4
        · exact Or.inl h3
        · exact Or.inr (List.mem_cons_of_mem _ h4)

theorem mem_sortByPrice {x : Level} :
    ∀ {ls : List Level}, x ∈ sortByPrice ls → x ∈ ls := by
  intro ls
  induction ls with
  | nil => intro h; rw [sortByPrice] at h; exact absurd h (List.not_mem_nil x)
  | cons y ys ih =>
    intro h
    rw [sortByPrice] at h
    rcases mem_insertSorted h with h1 | h2
    · simp [h1]
    · exact List.mem_cons_of_mem _ (ih h2)

theorem cumDepth10_nonneg (b : OrderBookData)
    (h : ∀ l ∈ b.asks, 0 ≤ l.size) : 0 ≤ cumDepth10 b := by
  apply List.sum_nonneg
  intro x hx
  rw [List.mem_map] at hx
  obtain ⟨l, hl, rfl⟩ := hx
  exact h l (mem_sortByPrice (List.take_subset _ _ hl))

theorem cumDepthGuard_pos (b : OrderBookData)
    (h : ∀ l ∈ b.asks, 0 ≤ l.size) : 0 < cumDepthGuard b := by
  rcases eq_or_ne (cumDepth10 b) 0 with hc | hc
  · rw [cumDepthGuard, if_pos hc]; norm_num
  · rw [cumDepthGuard, if_neg hc]
    exact lt_of_le_of_ne (cumDepth10_nonneg b h) (Ne.symm hc)

theorem walk_remaining_lower :
    ∀ (levels : List Level) (acc : ℚ × ℚ), (∀ l ∈ levels, 0 ≤ l.size) →
      acc.2 - totalSize levels ≤ (levels.foldl walkStep acc).2 := by
  intro levels
  induction levels with
  | nil => intro acc _; simp [totalSize]
  | cons x xs ih =>
    intro acc h
    rw [List.foldl_cons]
    have h1 : acc.2 - x.size ≤ (walkStep acc x).2 := by
      have hx : 0 ≤ x.size := h x (List.mem_cons_self x xs)
      by_cases hc : acc.2 ≤ 0
      · rw [walkStep, if_pos hc]; linarith
      · rw [walkStep, if_neg hc]
        have : min acc.2 x.size ≤ x.size := min_le_right _ _
        simp only
        linarith
    have h2 := ih (walkStep acc x) (fun l hl => h l (List.mem_cons_of_mem _ hl))
    have h3 : totalSize (x :: xs) = x.size + totalSize xs := by
      simp [totalSize]
    linarith

theorem vwapFold_eq :
    ∀ (ls : List Level) (a w : ℚ),
      ls.foldl vwapFoldStep (a, w)
        = (a + (ls.map Level.size).sum, w + (ls.map (fun l => l.price * l.size)).sum) := by
  intro ls
  induction ls with
  | nil => intro a w; simp
  | cons x xs ih =>
    intro a w
    rw [List.foldl_cons, show vwapFoldStep (a, w) x = (a + x.size, w + x.price * x.size) from rfl,
      ih]
    simp only [List.map_cons, List.sum_cons, Prod.mk.injEq]
    constructor <;> ring

theorem sum_sizes_const (s : ℚ) :
    ∀ (ls : List Level), (∀ l ∈ ls, l.size = s) →
      (ls.map Level.size).sum = ls.length * s := by
  intro ls
  induction ls with
  | nil => intro _; simp
  | cons x xs ih =>
    intro h
    have hx := h x (List.mem_cons_self x xs)
    rw [List.map_cons, List.sum_cons, ih (fun l hl => h l (List.mem_cons_of_mem _ hl)), hx,
      List.length_cons]
    push_cast
    ring

theorem sum_weighted_const (s : ℚ) :
    ∀ (ls : List Level), (∀ l ∈ ls, l.size = s) →
      (ls.map (fun l => l.price * l.size)).sum = (ls.map Level.price).sum * s := by
  intro ls
  induction ls with
  | nil => intro _; simp
  | cons x xs ih =>
    intro h
    have hx := h x (List.mem_cons_self x xs)
    rw [List.map_cons, List.sum_cons, ih (fun l hl => h l (List.mem_cons_of_mem _ hl)),
      List.map_cons, List.sum_cons, hx]
    ring

theorem lookup_mem_snd {α β : Type} [BEq α] (a : α) :
    ∀ (l : List (α × β)) (v : β), l.lookup a = some v → v ∈ l.map Prod.snd := by
  intro l
  induction l with
  | nil => intro v h; simp [List.lookup] at h
  | cons p t ih =>
    intro v h
    obtain ⟨k, w⟩ := p
    simp only [List.lookup] at h
    cases hak : (a == k) with
    | true =>
      rw [hak] at h
      simp only [Option.some.injEq] at h
      subst h
      simp
    | false =>
      rw [hak] at h
      simp only [List.map_cons]
      exact List.mem_cons_of_mem _ (ih v h)

theorem feeRates_taker_pos : ∀ p ∈ feeRates, (0 : ℚ) < p.2.2 := by
  intro p hp
  fin_cases hp <;> norm_num

theorem imbalance_bounds_aux (B A : ℚ) (hB : 0 ≤ B) (hA : 0 ≤ A) :
    -1 ≤ (if B + A = 0 then (0 : ℚ) else (B - A) / (B + A))
    ∧ (if B + A = 0 then (0 : ℚ) else (B - A) / (B + A)) ≤ 1 := by
  by_cases hz : B + A = 0
  · rw [if_pos hz]; norm_num
  · rw [if_neg hz]
    have hpos : 0 < B + A := lt_of_le_of_ne (by linarith) (Ne.symm hz)
    constructor
    · rw [le_div_iff₀ hpos]
      linarith
    · rw [div_le_one hpos]
      linarith

theorem clamp01_bounds (x : ℚ) : 0 ≤ max 0 (min 1 x) ∧ max 0 (min 1 x) ≤ 1 :=
  ⟨le_max_left 0 _, max_le (by norm_num) (min_le_left 1 x)⟩

/-- Claim C7: for every order book in which the best ask level or the best
bid level is absent (either side empty), `calculateMarketMetrics` returns
exactly the neutral value `spread = 0, depth = 0, imbalance = 0,
volatility = 0`.  The embedded function is total, so no error can be
raised. -/
theorem c7_neutral_metrics (b : OrderBookData) (h : b.asks = [] ∨ b.bids = []) :
    calculateMarketMetrics b = ⟨0, 0, 0, 0⟩ := by
  rcases b with ⟨asks, bids⟩
  rcases h with h | h
  · cases asks with
    | nil => rfl
    | cons a as => exact absurd h (by simp)
  · cases bids with
    | nil => cases asks <;> rfl
    | cons bd bs => exact absurd h (by simp)

/-- Witness for C7 at a concrete book with an empty ask side. -/
theorem c7_neutral_metrics_witness :
    calculateMarketMetrics ⟨[], [⟨100, 1⟩]⟩ = ⟨0, 0, 0, 0⟩ :=
  c7_neutral_metrics ⟨[], [⟨100, 1⟩]⟩ (Or.inl rfl)

/-- Claim C8: on a non-empty side whose levels all have the same positive
size `s`, `calculateVWAP` equals the arithmetic mean of the level prices;
and on an empty side it returns `0`. -/
theorem c8_vwap_mean (b : OrderBookData) (side : BookSide) (s : ℚ) (hs : 0 < s)
    (hne : bookSideLevels b side ≠ []) (hall : ∀ l ∈ bookSideLevels b side, l.size = s) :
    calculateVWAP b side
      = ((bookSideLevels b side).map Level.price).sum / ((bookSideLevels b side).length : ℚ)
    ∧ ∀ (c : OrderBookData) (sd : BookSide),
        bookSideLevels c sd = [] → calculateVWAP c sd = 0 := by
  constructor
  · obtain ⟨l0, ls, hL⟩ := List.exists_cons_of_ne_nil hne
    rw [calculateVWAP, hL]
    rw [hL] at hall
    have hn : (0 : ℚ) < ((l0 :: ls).length : ℚ) := by
      exact_mod_cast Nat.succ_pos ls.length
    have hvol : ((l0 :: ls).length : ℚ) * s ≠ 0 := by positivity
    rw [vwapOnLevels, vwapFold_eq]
    simp only [zero_add]
    rw [sum_sizes_const s (l0 :: ls) hall, sum_weighted_const s (l0 :: ls) hall]
    rw [if_neg hvol, div_eq_div_iff hvol (ne_of_gt hn)]
    ring
  · intro c sd h
    rw [calculateVWAP, h]
    rfl

/-- Witness for C8: a two-level ask side with equal sizes has VWAP equal
to the mean of its prices. -/
theorem c8_vwap_mean_witness :
    calculateVWAP ⟨[⟨100, 2⟩, ⟨102, 2⟩], []⟩ BookSide.asks = (100 + 102) / 2 := by
  have h := (c8_vwap_mean ⟨[⟨100, 2⟩, ⟨102, 2⟩], []⟩ BookSide.asks 2 (by norm_num)
    (by simp [bookSideLevels]) (by intro l hl; fin_cases hl <;> rfl)).1
  rw [h]
  norm_num [bookSideLevels]

/-- Claim C9: `calculateFees` returns `quantity × taker(feeTier)` from the
fixed lookup table; an unrecognized tier falls back to the VIP 0 taker
rate `0.0010`, and with positive quantity the fee is never zero (it is
strictly positive for every tier, known or unknown). -/
theorem c9_fee_lookup (feeTier : String) (quantity price : ℚ) (hq : 0 < quantity) :
    calculateFees feeTier quantity price
      = quantity * ((feeRates.lookup feeTier).getD (8 / 10000, 10 / 10000)).2
    ∧ (feeRates.lookup feeTier = none →
        calculateFees feeTier quantity price = quantity * (10 / 10000))
    ∧ 0 < calculateFees feeTier quantity price := by
  refine ⟨rfl, ?_, ?_⟩
  · intro h
    rw [calculateFees, h]
    rfl
  · rw [calculateFees]
    rcases h : feeRates.lookup feeTier with _ | r
    · simp only [Option.getD_none]
      exact mul_pos hq (by norm_num)
    · simp only [Option.getD_some]
      have hmem : r ∈ feeRates.map Prod.snd := lookup_mem_snd feeTier feeRates r h
      rw [List.mem_map] at hmem
      obtain ⟨p, hp, hpr⟩ := hmem
      have hpos := feeRates_taker_pos p hp
      rw [hpr] at hpos
      exact mul_pos hq hpos

/-- Witness for C9 at the unrecognized tier string "VIP 99": the fee is
the VIP 0 fallback and is strictly positive. -/
theorem c9_fee_lookup_witness : 0 < calculateFees "VIP 99" 5 7 :=
  (c9_fee_lookup "VIP 99" 5 7 (by norm_num)).2.2

/-- Claim C10: in `src/src/lib/marketModels.ts` the `price` argument of
`calculateFees` and of `calculateNetCost` is ignored: both results are
invariant under changing it. -/
theorem c10_price_unused (feeTier : String)
    (slippage fees marketImpact quantity p1 p2 : ℚ) :
    calculateFees feeTier quantity p1 = calculateFees feeTier quantity p2
    ∧ calculateNetCost slippage fees marketImpact quantity p1
      = calculateNetCost slippage fees marketImpact quantity p2 :=
  ⟨rfl, rfl⟩

/-- Claim C2 counterexample: at the spec's own example book (total ask
size 5) and buy quantity 10, the duplicate `calculatePriceImpact` at
`src/unnamed/part_000` lines 556-587 returns `Decimal(Infinity)`, not the
fixed finite sentinel 100 that the claim asserts. -/
theorem c2_counterexample :
    calculatePriceImpactUnbounded ⟨[⟨100, 2⟩, ⟨101, 3⟩], [⟨99, 5⟩, ⟨98, 1⟩]⟩ 10 Side.buy
      = ExtDec.inf
    ∧ ExtDec.inf ≠ ExtDec.fin 100 := by
  constructor
  · norm_num [calculatePriceImpactUnbounded, impactOnLevelsUnbounded, walkLevels, walkStep,
      sideLevels, min_def]
  · simp

/-- Claim C2 (amended): for the sentinel variant of `calculatePriceImpact`
(`src/unnamed/part_000` lines 420-456), a walked side with non-empty
levels of nonnegative sizes and a base quantity strictly exceeding the
total available size yields exactly the finite sentinel `100`. -/
theorem c2_sentinel_100 (b : OrderBookData) (quantity : ℚ) (side : Side)
    (hne : sideLevels b side ≠ [])
    (hsz : ∀ l ∈ sideLevels b side, 0 ≤ l.size)
    (hq : totalSize (sideLevels b side) < quantity) :
    calculatePriceImpact b quantity side = 100 := by
  obtain ⟨l0, rest, hL⟩ := List.exists_cons_of_ne_nil hne
  rw [calculatePriceImpact, hL]
  rw [hL] at hsz hq
  have hrem : 0 < (walkLevels (l0 :: rest) quantity).2 := by
    have h1 := walk_remaining_lower (l0 :: rest) (0, quantity) hsz
    simp only [walkLevels]
    simp only at h1
    linarith
  simp only [impactOnLevels]
  rw [if_pos hrem]

/-- Witness for C2 (amended) at the spec's example book with a buy of 10
against total ask size 5. -/
theorem c2_sentinel_100_witness :
    calculatePriceImpact ⟨[⟨100, 2⟩, ⟨101, 3⟩], [⟨99, 5⟩, ⟨98, 1⟩]⟩ 10 Side.buy = 100 :=
  c2_sentinel_100 ⟨[⟨100, 2⟩, ⟨101, 3⟩], [⟨99, 5⟩, ⟨98, 1⟩]⟩ 10 Side.buy
    (by simp [sideLevels])
    (by intro l hl; fin_cases hl <;> norm_num)
    (by norm_num [totalSize, sideLevels])

/-- Claim C3 counterexample: on a book whose best bid and ask both exist
but whose spread is wider than the 2% depth band (`bidDepth + askDepth =
0`), the duplicate `calculateMarketMetrics` at `src/unnamed/part_000`
lines 485-535 divides by the zero depth and produces a non-finite
imbalance (`none` models the `decimal.js` `NaN` of `0/0`), while the
guarded variant returns `0`. -/
theorem c3_counterexample :
    (calculateMarketMetricsNoGuard ⟨[⟨200, 5⟩], [⟨100, 5⟩]⟩).imbalance = none
    ∧ (calculateMarketMetrics ⟨[⟨200, 5⟩], [⟨100, 5⟩]⟩).imbalance = 0 := by
  constructor
  · norm_num [calculateMarketMetricsNoGuard, bandDepth, bookMid, bookThr, abs_le]
  · norm_num [calculateMarketMetrics, bandDepth, bookMid, bookThr, abs_le]

/-- Claim C3 (amended): the guarded `calculateMarketMetrics`
(`src/unnamed/part_000` lines 335-386) computes `depth = bidDepth +
askDepth` and `imbalance = (bidDepth − askDepth) / (bidDepth + askDepth)`
with the zero-denominator case explicitly mapped to `0`. -/
theorem c3_guarded_imbalance (b : OrderBookData) (ha : b.asks ≠ []) (hb : b.bids ≠ []) :
    (calculateMarketMetrics b).depth = bidDepthOf b + askDepthOf b
    ∧ (calculateMarketMetrics b).imbalance =
        (if bidDepthOf b + askDepthOf b = 0 then 0
         else (bidDepthOf b - askDepthOf b) / (bidDepthOf b + askDepthOf b)) := by
  rcases b with ⟨asks, bids⟩
  cases asks with
  | nil => exact absurd rfl ha
  | cons a as =>
    cases bids with
    | nil => exact absurd rfl hb
    | cons bd bs => exact ⟨rfl, rfl⟩

/-- Witness for C3 (amended) at the wide-spread book where the guarded
variant returns imbalance `0`. -/
theorem c3_guarded_imbalance_witness :
    (calculateMarketMetrics ⟨[⟨200, 5⟩], [⟨100, 5⟩]⟩).imbalance = 0 := by
  have h := (c3_guarded_imbalance ⟨[⟨200, 5⟩], [⟨100, 5⟩]⟩ (by simp) (by simp)).2
  rw [h]
  norm_num [bidDepthOf, askDepthOf, bandDepth, bookMid, bookThr, abs_le]

/-- Claim C1 counterexample: at the book `asks=[(100,1),(110,5)]`,
`bids=[(99,1)]` and quantity 2 (quote), neither `calculateSlippage`
implementation equals the claimed formula in which the book-walk impact is
taken of the quantity converted to base units via the best ask
(`2 / 100`): the enhanced model walks the raw quantity, and the linear
model in `src/src/lib/marketModels.ts` uses a different formula
altogether. -/
theorem c1_counterexample :
    calculateSlippageEnhanced ⟨[⟨100, 1⟩, ⟨110, 5⟩], [⟨99, 1⟩]⟩ 2 ≠
      max 0 (calculatePriceImpact ⟨[⟨100, 1⟩, ⟨110, 5⟩], [⟨99, 1⟩]⟩ (2 / 100) Side.buy
        * (1 + (1 / 2) * |(calculateMarketMetrics ⟨[⟨100, 1⟩, ⟨110, 5⟩], [⟨99, 1⟩]⟩).imbalance|)
        * (1 + 100 / ((calculateMarketMetrics ⟨[⟨100, 1⟩, ⟨110, 5⟩], [⟨99, 1⟩]⟩).depth + 1)))
    ∧ calculateSlippage ⟨[⟨100, 1⟩, ⟨110, 5⟩], [⟨99, 1⟩]⟩ 2 ≠
      max 0 (calculatePriceImpact ⟨[⟨100, 1⟩, ⟨110, 5⟩], [⟨99, 1⟩]⟩ (2 / 100) Side.buy
        * (1 + (1 / 2) * |(calculateMarketMetrics ⟨[⟨100, 1⟩, ⟨110, 5⟩], [⟨99, 1⟩]⟩).imbalance|)
        * (1 + 100 / ((calculateMarketMetrics ⟨[⟨100, 1⟩, ⟨110, 5⟩], [⟨99, 1⟩]⟩).depth + 1))) := by
  constructor
  · norm_num [calculateSlippageEnhanced, calculatePriceImpact, impactOnLevels, walkLevels,
      walkStep, calculateMarketMetrics, bandDepth, bookMid, bookThr, sideLevels, abs_le,
      min_def, max_def]
  · norm_num [calculateSlippage, calculatePriceImpact, impactOnLevels, walkLevels,
      walkStep, calculateMarketMetrics, bandDepth, bookMid, bookThr, sideLevels, abs_le,
      min_def, max_def, cumDepthGuard, cumDepth10, sortByPrice, insertSorted]

/-- Claim C1 (amended): for every order book with a non-empty asks side,
the enhanced `calculateSlippage` (`src/unnamed/part_001` lines 14-28)
equals `max(0, bookWalkImpact × (1 + 0.5×|imbalance|) × (1 +
100/(depth+1)))` where `bookWalkImpact` is the book-walk `priceImpact` of
the quantity passed through unchanged (no quote-to-base conversion via the
best ask). -/
theorem c1_enhanced_slippage (b : OrderBookData) (quantity : ℚ) (hne : b.asks ≠ []) :
    calculateSlippageEnhanced b quantity =
      max 0 (calculatePriceImpact b quantity Side.buy
        * (1 + (1 / 2) * |(calculateMarketMetrics b).imbalance|)
        * (1 + 100 / ((calculateMarketMetrics b).depth + 1))) := by
  rcases b with ⟨asks, bids⟩
  cases asks with
  | nil => exact absurd rfl hne
  | cons a as =>
    simp only [calculateSlippageEnhanced]
    congr 1
    ring

/-- Witness for C1 (amended) at a concrete book. -/
theorem c1_enhanced_slippage_witness :
    calculateSlippageEnhanced ⟨[⟨100, 1⟩, ⟨110, 5⟩], [⟨99, 1⟩]⟩ 2 =
      max 0 (calculatePriceImpact ⟨[⟨100, 1⟩, ⟨110, 5⟩], [⟨99, 1⟩]⟩ 2 Side.buy
        * (1 + (1 / 2) * |(calculateMarketMetrics ⟨[⟨100, 1⟩, ⟨110, 5⟩], [⟨99, 1⟩]⟩).imbalance|)
        * (1 + 100 / ((calculateMarketMetrics ⟨[⟨100, 1⟩, ⟨110, 5⟩], [⟨99, 1⟩]⟩).depth + 1))) :=
  c1_enhanced_slippage ⟨[⟨100, 1⟩, ⟨110, 5⟩], [⟨99, 1⟩]⟩ 2 (by simp)

/-- Claim C6: for every reconnect attempt number `n` with `1 ≤ n ≤ 10`,
the scheduled delay is `min(1000 × 2^(n−1), 30000)` ms; attempts 1-4 get
the uncapped `1000 × 2^(n−1)` (i.e. 1000, 2000, 4000, 8000 ms), every
attempt from 6 on gets exactly 30000 ms, and once 10 attempts have been
made no further reconnect is scheduled. -/
theorem c6_backoff_policy (n : ℕ) (hn1 : 1 ≤ n) (hn2 : n ≤ 10) (s : FeedState)
    (hic : s.intentionalClose = false) (ha : s.reconnectAttempts = n - 1) :
    (reconnectProc s).2 = some (min (reconnectDelay * 2 ^ (n - 1)) 30000)
    ∧ (n ≤ 4 → (reconnectProc s).2 = some (1000 * 2 ^ (n - 1)))
    ∧ (6 ≤ n → (reconnectProc s).2 = some 30000)
    ∧ ∀ t : FeedState, maxReconnectAttempts ≤ t.reconnectAttempts →
        (reconnectProc t).2 = none := by
  have hlt : s.reconnectAttempts < maxReconnectAttempts := by
    rw [ha]; unfold maxReconnectAttempts; omega
  have h1 : (reconnectProc s).2 = some (min (reconnectDelay * 2 ^ (n - 1)) 30000) := by
    rw [reconnectProc, if_pos ⟨hlt, hic⟩]
    simp [ha]
  refine ⟨h1, ?_, ?_, ?_⟩
  · intro h4
    rw [h1]
    interval_cases n <;> decide
  · intro h6
    rw [h1]
    have h32 : (32 : ℕ) ≤ 2 ^ (n - 1) := by
      calc (32 : ℕ) = 2 ^ 5 := by norm_num
      _ ≤ 2 ^ (n - 1) := Nat.pow_le_pow_right (by norm_num) (by omega)
    have h30 : (30000 : ℕ) ≤ reconnectDelay * 2 ^ (n - 1) := by
      have hm := Nat.mul_le_mul_left 1000 h32
      unfold reconnectDelay
      exact le_trans (by norm_num) hm
    rw [min_eq_right h30]
  · intro t ht
    have hneg : ¬(t.reconnectAttempts < maxReconnectAttempts ∧ t.intentionalClose = false) := by
      rintro ⟨hl, _⟩
      unfold maxReconnectAttempts at hl ht
      omega
    rw [reconnectProc, if_neg hneg]

/-- Witness for C6: the first reconnect attempt from a fresh feed is
scheduled with a 1000 ms delay. -/
theorem c6_backoff_policy_witness : (reconnectProc initFeedState).2 = some 1000 := by
  have h := (c6_backoff_policy 1 (by norm_num) (by norm_num) initFeedState rfl rfl).1
  simpa [reconnectDelay] using h

/-- Claim C4 (the failing trace): when `connect()` is called with a
transport whose constructor throws (so `this.ws` stays `null` and the
catch block schedules a reconnect timer), a subsequent `disconnect()` is a
no-op — its body is guarded by `if (this.ws)` — so `intentionalClose`
remains `false`, and when the pending timer then fires the machinery
invokes `connect()`: a reconnect attempt fires after `disconnect()`,
contradicting the claim. -/
theorem c4_reconnect_after_disconnect :
    (runEvents initFeedState [Ev.userConnect false, Ev.userDisconnect]).intentionalClose = false
    ∧ (stepOuts initFeedState
        [Ev.userConnect false, Ev.userDisconnect, Ev.timerFire true]).map StepOut.connectFired
      = [false, false, true] := by
  decide

/-- Claim C5: for every valid snapshot (non-empty, non-crossed book with
positive prices and sizes) and parameters with positive quantity (and the
spec-bounded nonnegative volatility), the outputs satisfy
`imbalance ∈ [-1, 1]`, `makerTakerProportion ∈ [0, 1]`, and slippage,
market impact and fees are all nonnegative.  `E` and `S` model `Math.exp`
and `Math.sqrt`; `S` is only required to be positive on positives, which
the real square root satisfies. -/
theorem c5_output_invariants (E S : ℚ → ℚ) (hS : ∀ x : ℚ, 0 < x → 0 < S x)
    (b : OrderBookData) (hb : validBook b) (quantity volatility : ℚ)
    (hq : 0 < quantity) (hvol : 0 ≤ volatility) :
    (-1 ≤ (calculateMarketMetrics b).imbalance ∧ (calculateMarketMetrics b).imbalance ≤ 1)
    ∧ (0 ≤ calculateMakerTakerProportion E b quantity
       ∧ calculateMakerTakerProportion E b quantity ≤ 1)
    ∧ 0 ≤ calculateSlippage b quantity
    ∧ 0 ≤ calculateMarketImpact S b quantity volatility
    ∧ ∀ (feeTier : String) (price : ℚ), 0 ≤ calculateFees feeTier quantity price := by
  obtain ⟨hane, hbne, hasks, hbids, hcross⟩ := hb
  rcases b with ⟨asks, bids⟩
  cases asks with
  | nil => exact absurd rfl hane
  | cons a as =>
  cases bids with
  | nil => exact absurd rfl hbne
  | cons bd bs =>
  have hcross' : bd.price < a.price := hcross
  have hap : 0 < a.price := (hasks a (List.mem_cons_self a as)).1
  have hbp : 0 < bd.price := (hbids bd (List.mem_cons_self bd bs)).1
  have hsizeA : ∀ l ∈ a :: as, 0 ≤ l.size := fun l hl => (hasks l hl).2.le
  have hsizeB : ∀ l ∈ bd :: bs, 0 ≤ l.size := fun l hl => (hbids l hl).2.le
  have hBD : 0 ≤ bandDepth (bookMid a bd) (bookThr a bd) (bd :: bs) :=
    bandDepth_nonneg _ _ _ hsizeB
  have hAD : 0 ≤ bandDepth (bookMid a bd) (bookThr a bd) (a :: as) :=
    bandDepth_nonneg _ _ _ hsizeA
  have hmid : 0 < bookMid a bd := by
    unfold bookMid; linarith
  have hqb : 0 ≤ quantity / a.price := le_of_lt (div_pos hq hap)
  have hvola : 0 ≤ (calculateMarketMetrics ⟨a :: as, bd :: bs⟩).volatility := by
    show 0 ≤ (a.price - bd.price) / bookMid a bd * 100
    have hsp : 0 ≤ a.price - bd.price := by linarith
    exact mul_nonneg (div_nonneg hsp hmid.le) (by norm_num)
  have hdep : 0 ≤ (calculateMarketMetrics ⟨a :: as, bd :: bs⟩).depth := by
    show 0 ≤ bandDepth (bookMid a bd) (bookThr a bd) (bd :: bs)
        + bandDepth (bookMid a bd) (bookThr a bd) (a :: as)
    linarith
  have hslip : 0 ≤ calculateSlippage ⟨a :: as, bd :: bs⟩ quantity := by
    have hcum : 0 < cumDepthGuard ⟨a :: as, bd :: bs⟩ := cumDepthGuard_pos _ hsizeA
    have himbf : 0 ≤ 1 + |(calculateMarketMetrics ⟨a :: as, bd :: bs⟩).imbalance| := by
      have := abs_nonneg (calculateMarketMetrics ⟨a :: as, bd :: bs⟩).imbalance
      linarith
    show 0 ≤ (1 / 10) * ((quantity / a.price) / cumDepthGuard ⟨a :: as, bd :: bs⟩)
        * ((calculateMarketMetrics ⟨a :: as, bd :: bs⟩).volatility / 100)
        * (1 + |(calculateMarketMetrics ⟨a :: as, bd :: bs⟩).imbalance|) * 100
    have h1 : 0 ≤ (quantity / a.price) / cumDepthGuard ⟨a :: as, bd :: bs⟩ :=
      div_nonneg hqb hcum.le
    have h2 : 0 ≤ (calculateMarketMetrics ⟨a :: as, bd :: bs⟩).volatility / 100 :=
      div_nonneg hvola (by norm_num)
    have h0 : (0 : ℚ) ≤ 1 / 10 := by norm_num
    exact mul_nonneg (mul_nonneg (mul_nonneg (mul_nonneg h0 h1) h2) himbf) (by norm_num)
  have himp : 0 ≤ calculateMarketImpact S ⟨a :: as, bd :: bs⟩ quantity volatility := by
    have hdpos : 0 < (if (calculateMarketMetrics ⟨a :: as, bd :: bs⟩).depth = 0 then 1
        else (calculateMarketMetrics ⟨a :: as, bd :: bs⟩).depth) := by
      by_cases hz : (calculateMarketMetrics ⟨a :: as, bd :: bs⟩).depth = 0
      · rw [if_pos hz]; norm_num
      · rw [if_neg hz]; exact lt_of_le_of_ne hdep (Ne.symm hz)
    have hS1 : 0 < S (if (calculateMarketMetrics ⟨a :: as, bd :: bs⟩).depth = 0 then 1
        else (calculateMarketMetrics ⟨a :: as, bd :: bs⟩).depth) := hS _ hdpos
    show 0 ≤ ((almgrenChriss.eta * (quantity / a.price)
        + almgrenChriss.gamma / 2 * (quantity / a.price) ^ 2 * (volatility / 100))
       * (1 + 1 / S (if (calculateMarketMetrics ⟨a :: as, bd :: bs⟩).depth = 0 then 1
                     else (calculateMarketMetrics ⟨a :: as, bd :: bs⟩).depth))) * 100
    have hterm1 : 0 ≤ almgrenChriss.eta * (quantity / a.price) :=
      mul_nonneg (by norm_num [almgrenChriss]) hqb
    have hterm2 : 0 ≤ almgrenChriss.gamma / 2 * (quantity / a.price) ^ 2 * (volatility / 100) :=
      mul_nonneg (mul_nonneg (by norm_num [almgrenChriss]) (sq_nonneg _))
        (div_nonneg hvol (by norm_num))
    have hdf : 0 ≤ 1 + 1 / S (if (calculateMarketMetrics ⟨a :: as, bd :: bs⟩).depth = 0 then 1
        else (calculateMarketMetrics ⟨a :: as, bd :: bs⟩).depth) := by
      have := le_of_lt (div_pos one_pos hS1)
      linarith
    exact mul_nonneg (mul_nonneg (by linarith) hdf) (by norm_num)
  have hfees : ∀ (feeTier : String) (price : ℚ),
      0 ≤ calculateFees feeTier quantity price := by
    intro tier price
    rw [calculateFees]
    rcases h : feeRates.lookup tier with _ | r
    · simp only [Option.getD_none]
      exact mul_nonneg hq.le (by norm_num)
    · simp only [Option.getD_some]
      have hmem : r ∈ feeRates.map Prod.snd := lookup_mem_snd tier feeRates r h
      rw [List.mem_map] at hmem
      obtain ⟨p, hp, hpr⟩ := hmem
      have hpos := feeRates_taker_pos p hp
      rw [hpr] at hpos
      exact mul_nonneg hq.le hpos.le
  exact ⟨imbalance_bounds_aux _ _ hBD hAD, clamp01_bounds _, hslip, himp, hfees⟩

/-- Witness for C5 at the spec's example book with `E = S = const 1`,
quantity 100 and volatility 2. -/
theorem c5_output_invariants_witness :
    0 ≤ calculateSlippage ⟨[⟨100, 2⟩, ⟨101, 3⟩], [⟨99, 5⟩, ⟨98, 1⟩]⟩ 100
    ∧ 0 ≤ calculateMarketImpact (fun _ => 1) ⟨[⟨100, 2⟩, ⟨101, 3⟩], [⟨99, 5⟩, ⟨98, 1⟩]⟩ 100 2 :=
  ⟨(c5_output_invariants (fun _ => 1) (fun _ => 1) (fun _ _ => one_pos)
      ⟨[⟨100, 2⟩, ⟨101, 3⟩], [⟨99, 5⟩, ⟨98, 1⟩]⟩ (by decide) 100 2
      (by norm_num) (by norm_num)).2.2.1,
   (c5_output_invariants (fun _ => 1) (fun _ => 1) (fun _ _ => one_pos)
      ⟨[⟨100, 2⟩, ⟨101, 3⟩], [⟨99, 5⟩, ⟨98, 1⟩]⟩ (by decide) 100 2
      (by norm_num) (by norm_num)).2.2.2.1⟩
